import Mathlib

/-!
Verification of the DOC_SEARCH_GENERATOR backend (FastAPI + WebSocket
document-discovery demo) against its natural-language specification.

The Python services are shallowly embedded as pure Lean functions:
  * `services/system_config.py`      → `SystemConfig` namespace
  * `services/websocket_manager.py`  → `WsManager` namespace
  * `main.py` (router)               → `Router` namespace
  * `services/document_discovery.py` → `Discovery` namespace
  * `services/ai_agent.py`           → `Agent` namespace
  * `services/pipeline_manager.py`   → `Pipeline` namespace

Async generators become functions returning the list of yielded messages;
mutable service state is passed and returned explicitly; Python `try/except`
blocks become total functions returning `Except` or explicit outcome sums.
External collaborators (MD5 hex digests, file extraction, the filesystem)
are parameters of the embedding: MD5 is an arbitrary `String → String`
argument, and per-file extraction outcomes are inputs to the trace builders,
exactly at the points where the source calls out to them.
-/

/-! ## System configuration service (`services/system_config.py`) -/

namespace SystemConfig

/-- One stored Groq API key entry, as kept in
`config["llm_config"]["groq_keys"]`.  A missing/falsy `id` (Python
`key_data.get("id")` being absent, `None` or `""`) is modelled by the
empty string. -/
structure ApiKey where
  id : String
  value : String
  active : Bool
  createdAt : String
deriving Repr, DecidableEq

/-- Result of a config mutation: the returned status string, the new
in-memory key list, and whether `_save_config` was reached (persistence
to disk). -/
structure MutationResult where
  status : String
  keys : List ApiKey
  saved : Bool
deriving Repr, DecidableEq

/-- Embedding of `SystemConfigService.set_active_api_key` (lines 172-196).
The Python loop mutates every key in place (`active = (id == key_id)`)
before checking `key_found`; on a miss it returns the error result without
reaching `_save_config()`. -/
def setActiveApiKey (keys : List ApiKey) (keyId : String) : MutationResult :=
  if keys.isEmpty then
    { status := "error", keys := keys, saved := false }
  else
    let keys2 := keys.map fun k => { k with active := k.id == keyId }
    let keyFound := keys.any fun k => k.id == keyId
    if keyFound then
      { status := "success", keys := keys2, saved := true }
    else
      { status := "error", keys := keys2, saved := false }

/-- Replace the first key sharing `kd`'s id, else append — the
update-or-append loop of `save_api_key` (lines 131-141). -/
def upsertKey (kd : ApiKey) : List ApiKey → List ApiKey
  | [] => [kd]
  | k :: rest => if k.id == kd.id then kd :: rest else k :: upsertKey kd rest

/-- Embedding of `SystemConfigService.save_api_key` (lines 115-150).
`freshId`/`nowTs` stand for the `uuid.uuid4()` and `datetime.now()`
collaborators used when the incoming key has no id.  When the incoming key
is marked active, all stored keys are deactivated first; then the key is
updated in place or appended.  `_save_config` is always reached. -/
def saveApiKey (freshId nowTs : String) (kd : ApiKey) (keys : List ApiKey) :
    MutationResult :=
  let kd2 := if kd.id == "" then { kd with id := freshId, createdAt := nowTs } else kd
  let keys2 := if kd2.active then keys.map (fun k => { k with active := false }) else keys
  { status := "success", keys := upsertKey kd2 keys2, saved := true }

end SystemConfig

/-! ## WebSocket manager (`services/websocket_manager.py`) -/

namespace WsManager

/-- An outbound message as assembled by the manager: a `type` discriminator,
free text, and an optional timestamp (`none` = the caller omitted it). -/
structure WsMsg where
  type : String
  message : String
  timestamp : Option String
deriving Repr, DecidableEq

/-- The transport handle of one registered client.  `writeOk` abstracts
whether `websocket.send_text` succeeds or raises (dead connection). -/
structure Conn where
  writeOk : Bool
deriving Repr, DecidableEq

/-- `active_connections`: client id → transport handle. -/
def Registry := List (String × Conn)

/-- Embedding of `WebSocketManager.disconnect` (lines 23-27): drop the
entry for `cid`, idempotent when absent. -/
def disconnect (r : Registry) (cid : String) : Registry :=
  r.filter fun p => p.1 != cid

/-- Membership test for the registry (`client_id in self.active_connections`). -/
def registered (r : Registry) (cid : String) : Bool :=
  r.any fun p => p.1 == cid

/-- Embedding of `WebSocketManager.send_message` (lines 29-41).  Unknown
ids are ignored; a missing timestamp is stamped with `now` before the
write; a failing write (`writeOk = false`, the `except` branch) removes
the client and delivers nothing — the function is total, so no exception
reaches the caller.  Returns the new registry and the list of messages
actually delivered to the transport. -/
def sendMessage (now : String) (r : Registry) (cid : String) (m : WsMsg) :
    Registry × List (String × WsMsg) :=
  match r.find? (fun p => p.1 == cid) with
  | none => (r, [])
  | some (_, c) =>
    let m2 := if m.timestamp = none then { m with timestamp := some now } else m
    if c.writeOk then (r, [(cid, m2)]) else (disconnect r cid, [])

/-- Embedding of `WebSocketManager.send_error` (lines 43-49): sugar for an
already-timestamped message of type `error`. -/
def sendError (now : String) (r : Registry) (cid : String) (text : String) :
    Registry × List (String × WsMsg) :=
  sendMessage now r cid { type := "error", message := text, timestamp := some now }

/-- Embedding of `WebSocketManager.broadcast` (lines 51-55): send to every
currently registered id in order. -/
def broadcast (now : String) (r : Registry) (m : WsMsg) :
    Registry × List (String × WsMsg) :=
  (r.map Prod.fst).foldl
    (fun acc cid =>
      let out := sendMessage now acc.1 cid m
      (out.1, acc.2 ++ out.2))
    (r, [])

end WsManager

/-! ## Request router (`main.py`, `handle_websocket_message`) -/

namespace Router

open WsManager

/-- The actions recognized by `handle_websocket_message` (main.py lines
110-137). -/
def recognizedActions : List String :=
  ["document_discovery", "process_local_files", "document_search", "ai_agent",
   "download_document", "pipeline_stage1", "pipeline_stage2", "system_config",
   "get_status", "test_llm_connection", "check_document_updates",
   "get_search_history", "get_saved_searches", "advanced_search"]

/-- What the router does with one inbound message, restricted to the
dispatch decision: either it dispatches to the named handler, or (the
`else` branch, line 139) it emits one typed error naming the action. -/
inductive RouteOutcome
  | dispatch (handler : String)
  | unknown
deriving Repr, DecidableEq

/-- The dispatch decision of `handle_websocket_message`. -/
def routeAction (action : String) : RouteOutcome :=
  if recognizedActions.contains action then .dispatch action else .unknown

/-- Embedding of the unknown-action branch of `handle_websocket_message`:
`send_error(client_id, f"Unknown action: {action}")`.  Returns the new
registry and delivered messages.  The surrounding `try/except` makes the
handler total. -/
def handleUnknownAction (now : String) (r : Registry) (cid : String)
    (action : String) : Registry × List (String × WsMsg) :=
  sendError now r cid ("Unknown action: " ++ action)

end Router

/-! ## Document discovery service (`services/document_discovery.py`) -/

namespace Discovery

/-- A document record as the discovery service builds it (a Python dict).
Optional/absent string fields are modelled by `Option`; `document_hash`
uses the empty string for absent-or-empty, matching the falsiness test
`doc.get("document_hash") or ...` in the source. -/
structure Doc where
  id : String
  title : String
  url : String
  source : String
  relevance : ℚ
  downloadStatus : String := "pending"
  downloadProgress : Nat := 0
  validated : Bool := false
  validation_date : Option String := none
  document_hash : String := ""
  rank : Option Nat := none
  discovered_at : Option String := none
  page_references : List Nat := []
  downloaded_at : Option String := none
  local_path : Option String := none
deriving Repr, DecidableEq

/-- Embedding of `_generate_document_hash` (lines 505-508):
`md5(f"{url}_{title}_{source}").hexdigest()[:16]`.  The MD5 hex digest is
an external pure collaborator, passed in as `md5hex`. -/
def docHash (md5hex : String → String) (d : Doc) : String :=
  (md5hex (d.url ++ "_" ++ d.title ++ "_" ++ d.source)).take 16

/-- Derived mock-document id (`_generate_mock_documents`, line 369):
`md5(f"{url}_{title}").hexdigest()[:8]`. -/
def mockDocId (md5hex : String → String) (url title : String) : String :=
  (md5hex (url ++ "_" ++ title)).take 8

/-- Loop body of `_validate_documents` (lines 477-503): walk the batch in
order keeping a local `seen_urls` set and the process-wide
`document_hashes` set; skip URL duplicates, then stamp
`validated`/`validation_date`/`document_hash`, and keep the document only
when its hash is not already known, recording the hash. -/
def validateGo (md5hex : String → String) (now : String) :
    List Doc → List String → List String → List Doc × List String
  | [], _, hashes => ([], hashes)
  | d :: rest, seen, hashes =>
    if d.url ∈ seen then validateGo md5hex now rest seen hashes
    else
      let seen2 := d.url :: seen
      let h := docHash md5hex d
      let d2 := { d with validated := true, validation_date := some now,
                         document_hash := h }
      if h ∈ hashes then validateGo md5hex now rest seen2 hashes
      else
        let out := validateGo md5hex now rest seen2 (h :: hashes)
        (d2 :: out.1, out.2)

/-- Embedding of `_validate_documents`: returns the validated list and the
updated process-wide hash set. -/
def validateDocuments (md5hex : String → String) (now : String)
    (hashes : List String) (docs : List Doc) : List Doc × List String :=
  validateGo md5hex now docs [] hashes

/-- The comparison used by `sorted(documents, key=lambda x: x["relevance"],
reverse=True)`: descending relevance, stable on ties. -/
def relevanceDesc (a b : Doc) : Bool :=
  decide (b.relevance ≤ a.relevance)

/-- The per-document metadata stamp of `_organize_documents` (lines
519-522): 1-based rank, discovery timestamp, mock page references. -/
def organizeUpdate (now : String) (i : Nat) (d : Doc) : Doc :=
  { d with rank := some (i + 1), discovered_at := some now,
           page_references := [i * 10 + 1, i * 10 + 2, i * 10 + 3] }

/-- Embedding of `_organize_documents` (lines 510-524): stable-sort by
descending relevance, truncate to `maxDocs`, then stamp the metadata. -/
def organizeDocuments (now : String) (docs : List Doc) (maxDocs : Nat) :
    List Doc :=
  ((docs.mergeSort relevanceDesc).take maxDocs).mapIdx (organizeUpdate now)

/-- Mutable state of `DocumentDiscoveryService` relevant to downloads. -/
structure DiscoveryState where
  discovered : List Doc
  downloaded : List Doc
deriving Repr, DecidableEq

/-- `doc.get("document_hash") or self._generate_document_hash(doc)`:
the stored hash when present (non-empty), else the derived one. -/
def effectiveHash (md5hex : String → String) (d : Doc) : String :=
  if d.document_hash == "" then docHash md5hex d else d.document_hash

/-- Embedding of `_is_document_already_downloaded` (lines 575-578): some
entry of the downloaded list carries the same content hash. -/
def isAlreadyDownloaded (md5hex : String → String) (st : DiscoveryState)
    (d : Doc) : Bool :=
  st.downloaded.any fun x => x.document_hash == effectiveHash md5hex d

/-- Embedding of `DocumentDiscoveryService.download_document`
(lines 530-573).  Resolves the document (explicit argument, else lookup by
id, else `ValueError`); if an identical document was already downloaded it
short-circuits to `completed`/100 without touching the downloaded list;
otherwise it runs the simulated download and appends the result.  The
returned `Bool` records whether the simulated download ran. -/
def downloadDocument (md5hex : String → String) (now : String)
    (st : DiscoveryState) (documentId : String) (document : Option Doc) :
    Except String (Doc × DiscoveryState × Bool) :=
  let found : Except String Doc :=
    match document with
    | some d => .ok d
    | none =>
      match st.discovered.find? (fun d => d.id == documentId) with
      | some d => .ok d
      | none => .error ("Document " ++ documentId ++ " not found")
  match found with
  | .error e => .error e
  | .ok doc =>
    if isAlreadyDownloaded md5hex st doc then
      .ok ({ doc with downloadStatus := "completed", downloadProgress := 100,
                      downloaded_at := some now }, st, false)
    else
      let d2 := { doc with downloadStatus := "completed",
                           downloadProgress := 100,
                           downloaded_at := some now,
                           local_path := some ("./data/documents/" ++ documentId ++ ".pdf") }
      .ok (d2, { st with downloaded := st.downloaded ++ [d2] }, true)

end Discovery

/-! ## Streamed progress traces

Each async generator is embedded as a function returning the list of
messages it yields, in order.  Cosmetic message text is kept where it is
cheap; structured payload fields not needed by any claim (the step-array
snapshots of the agent run, the synthetic-example counter of stage 2, which
depends on the salted Python `hash` builtin) are elided. -/

namespace Discovery

/-- One yielded progress message of `discover_documents` /
`process_local_files`: step name, overall progress (0-100), status string,
and the final `count` payload when present. -/
structure ProgMsg where
  step : String
  progress : ℚ
  status : String
  count : Option Nat := none
deriving Repr, DecidableEq

/-- Embedding of `_generate_search_queries` (lines 140-158): five base
queries, three more when a certification level is selected, capped at 8. -/
def generateSearchQueries (topic certLevel : String) : List String :=
  let base := [topic ++ " cisco configuration guide",
               topic ++ " cisco troubleshooting",
               topic ++ " cisco best practices",
               topic ++ " cisco implementation examples",
               topic ++ " cisco security configuration"]
  let qs := if certLevel != "all" then
      base ++ [topic ++ " " ++ certLevel ++ " study guide",
               topic ++ " " ++ certLevel ++ " configuration",
               topic ++ " " ++ certLevel ++ " troubleshooting"]
    else base
  qs.take 8

/-- Embedding of `discover_documents` (lines 60-138).  `searchWeb` is the
per-query search collaborator (`_search_web` swallows every collaborator
exception internally and always returns a list, so it is total).  Returns
the yielded trace, the final organized document list, and the updated
process-wide hash set. -/
def discoverDocuments (md5hex : String → String) (now : String)
    (topic certLevel : String) (maxDocs : Nat) (hashes : List String)
    (searchWeb : String → List Doc) :
    List ProgMsg × List Doc × List String :=
  let queries := generateSearchQueries topic certLevel
  let nq := queries.length
  let searchMsgs := (List.range nq).map fun (i : Nat) =>
    ({ step := "search_sources", progress := 40 + (((i : ℚ) + 1) / (nq : ℚ)) * 30,
       status := "running" } : ProgMsg)
  let allResults := (queries.map searchWeb).foldl (· ++ ·) []
  let validated := validateDocuments md5hex now hashes allResults
  let finalDocs := organizeDocuments now validated.1 maxDocs
  (({ step := "initialize", progress := 0, status := "running" } : ProgMsg) ::
     ({ step := "generate_queries", progress := 20, status := "running" } : ProgMsg) ::
     ({ step := "search_sources", progress := 40, status := "running" } : ProgMsg) ::
     searchMsgs ++
     [{ step := "validate", progress := 70, status := "running" },
      { step := "download", progress := 90, status := "running" },
      { step := "completed", progress := 100, status := "completed",
        count := some finalDocs.length }],
   finalDocs, validated.2)

/-- Outcome of `_process_single_file` for one uploaded file: a document
(success), `None` (unsupported extension, or an extraction/write error
caught inside `_process_single_file`), or an exception escaping it
(caught by the loop in `process_local_files`). -/
inductive FileOutcome
  | ok (d : Doc)
  | skipped
  | raised (err : String)
deriving Repr, DecidableEq

/-- One entry of `files_data` together with its processing outcome. -/
structure FileJob where
  name : String
  outcome : FileOutcome
deriving Repr, DecidableEq

/-- Whether a file job yields a document. -/
def FileJob.isOk (j : FileJob) : Bool :=
  match j.outcome with
  | .ok _ => true
  | _ => false

/-- Outcome of `_process_directory`: a list of processed documents, or an
exception (e.g. `ValueError` when the directory does not exist), caught by
`process_local_files`. -/
inductive DirOutcome
  | ok (ds : List Doc)
  | raised (err : String)
deriving Repr, DecidableEq

/-- The per-file loop of `process_local_files` (lines 627-652): each file
yields a `running` message at progress `(current/total)*80`; a file whose
processing raises additionally yields an `error` message at the same
progress and is skipped; `None` results are silently skipped. -/
def processFilesGo (total : ℚ) : List FileJob → Nat → List ProgMsg × List Doc
  | [], _ => ([], [])
  | j :: rest, cur =>
    let cur2 := cur + 1
    let prog := ((cur2 : ℚ) / total) * 80
    let head : ProgMsg := { step := "process_file", progress := prog, status := "running" }
    let tail := processFilesGo total rest cur2
    match j.outcome with
    | .ok d => (head :: tail.1, d :: tail.2)
    | .skipped => (head :: tail.1, tail.2)
    | .raised _ =>
      (head :: ({ step := "process_file", progress := prog, status := "error" } : ProgMsg)
            :: tail.1, tail.2)

/-- Embedding of `process_local_files` (lines 609-700): initialize at 0,
process each uploaded file (and optionally the directory) linearly up to
80, finalize at 90, and always end with a single `completed` message at 100
carrying the processed-file count. -/
def processLocalFiles (files : List FileJob) (dir : Option DirOutcome) :
    List ProgMsg × List Doc :=
  let total : ℚ := (files.length : ℚ) + (if dir.isSome then 1 else 0)
  let fileSeg := processFilesGo total files 0
  let dirSeg : List ProgMsg × List Doc :=
    match dir with
    | none => ([], [])
    | some d =>
      let prog := (((files.length : ℚ) + 1) / total) * 80
      match d with
      | .ok ds =>
        ([{ step := "process_directory", progress := prog, status := "running" }], ds)
      | .raised _ =>
        ([{ step := "process_directory", progress := prog, status := "running" },
          { step := "process_directory", progress := prog, status := "error" }], [])
  let processed := fileSeg.2 ++ dirSeg.2
  (({ step := "initialize", progress := 0, status := "running" } : ProgMsg) ::
     fileSeg.1 ++ dirSeg.1 ++
     [{ step := "finalize", progress := 90, status := "running" },
      { step := "completed", progress := 100, status := "completed",
        count := some processed.length }],
   processed)

end Discovery

/-! ## AI agent service (`services/ai_agent.py`) -/

namespace Agent

/-- One yielded message of `run_agent`: overall progress, current step
label, status.  The mutable step-array snapshot is elided (the source
yields an alias of one mutated list; no claim refers to it). -/
structure AgentMsg where
  overallProgress : ℚ
  currentStep : String
  status : String
deriving Repr, DecidableEq

/-- Embedding of the agent's `_generate_search_queries` (lines 190-211). -/
def generateSearchQueries (topic certLevel : String) : List String :=
  let base := [topic ++ " cisco configuration guide",
               topic ++ " cisco troubleshooting best practices",
               topic ++ " cisco implementation examples",
               topic ++ " cisco security considerations",
               topic ++ " cisco performance optimization"]
  let qs := if certLevel != "all" then
      base ++ [topic ++ " " ++ certLevel ++ " study guide",
               topic ++ " " ++ certLevel ++ " lab exercises",
               topic ++ " " ++ certLevel ++ " exam preparation"]
    else base
  qs.take 8

/-- Embedding of `run_agent` (lines 22-188), trace only.  All collaborators
reached from the body (`_generate_search_queries`, `_search_web`,
`_remove_duplicates`, `_refine_search_results`) are total in-file mocks
for well-typed inputs, so the `except` branch of the source is
unreachable and the run always ends in the single `completed` message.
The fixed milestones are 20/40/60 (held during the per-query loop)
/80/90/100. -/
def runAgent (query certLevel : String) : List AgentMsg :=
  let nq := (generateSearchQueries query certLevel).length
  ({ overallProgress := 20, currentStep := "Initializing AI Agent...",
     status := "running" } : AgentMsg) ::
  ({ overallProgress := 40,
     currentStep := "Generating optimized search queries with AI...",
     status := "running" } : AgentMsg) ::
  ({ overallProgress := 60,
     currentStep := "Searching web sources for new documents...",
     status := "running" } : AgentMsg) ::
  ((List.range nq).map fun _ =>
    ({ overallProgress := 60,
       currentStep := "Searching web sources for new documents...",
       status := "running" } : AgentMsg)) ++
  [{ overallProgress := 80,
     currentStep := "Refining results with AI for optimal RAG training...",
     status := "running" },
   { overallProgress := 90,
     currentStep := "Preparing new documents for download...",
     status := "running" },
   { overallProgress := 100, currentStep := "AI Agent completed",
     status := "completed" }]

/-- Embedding of `AIAgentService.download_document` (lines 267-313).  The
downloaded-set is the hash set `document_hashes`; a hash hit
short-circuits to `completed`/100 leaving the set untouched and skipping
the simulated download; otherwise the download is simulated and the hash
recorded.  The returned `Bool` records whether the simulated download
ran. -/
def downloadDocument (md5hex : String → String) (now : String)
    (hashes : List String) (discovered : List Discovery.Doc)
    (documentId : String) (document : Option Discovery.Doc) :
    Except String (Discovery.Doc × List String × Bool) :=
  let found : Except String Discovery.Doc :=
    match document with
    | some d => .ok d
    | none =>
      match discovered.find? (fun d => d.id == documentId) with
      | some d => .ok d
      | none => .error ("Document " ++ documentId ++ " not found")
  match found with
  | .error e => .error e
  | .ok doc =>
    let h := Discovery.docHash md5hex doc
    if h ∈ hashes then
      .ok ({ doc with downloadStatus := "completed", downloadProgress := 100,
                      downloaded_at := some now }, hashes, false)
    else
      .ok ({ doc with downloadStatus := "completed", downloadProgress := 100,
                      downloaded_at := some now,
                      local_path := some ("./data/documents/" ++ documentId ++ ".pdf") },
           h :: hashes, true)

end Agent

/-! ## Pipeline manager (`services/pipeline_manager.py`) -/

namespace Pipeline

/-- One yielded message of `run_stage1` / `run_stage2`. -/
structure StageMsg where
  stage : Nat
  status : String
  progress : ℚ
  current_step : String
deriving Repr, DecidableEq

/-- The fixed six-step sequence of stage 1 (lines 38-45). -/
def stage1Steps : List String :=
  ["Initializing document discovery...",
   "Searching for Cisco documentation...",
   "Validating PDF links...",
   "Downloading documents...",
   "Organizing files...",
   "Discovery completed"]

/-- Embedding of `run_stage1` (lines 29-81): one message per step with
progress `(i+1)/6*100`, status `completed` exactly on the last step. -/
def runStage1 : List StageMsg :=
  let n := stage1Steps.length
  (List.range n).map fun i =>
    { stage := 1,
      status := if i + 1 = n then "completed" else "running",
      progress := ((i + 1 : ℚ) / (n : ℚ)) * 100,
      current_step := stage1Steps.getD i "" }

/-- Phase 1 step list of stage 2 (lines 102-113). -/
def phase1Steps : List String :=
  ["Checking GPU availability (Ollama/Groq)...",
   "Extracting text from seed PDF...",
   "Generating synthetic error patterns (GPU)...",
   "Creating best practices library (GPU)...",
   "Generating troubleshooting scenarios (GPU)...",
   "Building configuration examples (GPU)...",
   "Combining real + synthetic data...",
   "Creating high-density embeddings (GPU)...",
   "Optimizing for basic RAG accuracy...",
   "Finalizing basic Chroma vector store..."]

/-- Phase 2 step list of stage 2 (lines 114-123). -/
def phase2Steps : List String :=
  ["Initializing Hierarchical Index structure...",
   "Parsing configurations into structured chunks...",
   "Building device memory filters...",
   "Creating feature-area taxonomies...",
   "Implementing version-aware filtering...",
   "Optimizing retrieval precision...",
   "Building foundational index (80-88% accuracy)...",
   "Finalizing hierarchical vector store..."]

/-- Phase 3 step list of stage 2 (lines 124-133). -/
def phase3Steps : List String :=
  ["Building Graph RAG knowledge graph...",
   "Creating device-feature relationships...",
   "Mapping error-solution dependencies...",
   "Building version compatibility graph...",
   "Implementing graph-aware retrieval...",
   "Optimizing for dependency nuance...",
   "Achieving low 90s accuracy target...",
   "Finalizing Graph RAG layer..."]

/-- Phase 4 step list of stage 2 (lines 134-143). -/
def phase4Steps : List String :=
  ["Initializing Agentic Loop framework...",
   "Building tool execution pipeline...",
   "Creating hypothesis validation system...",
   "Implementing iterative evidence gathering...",
   "Building command execution interface...",
   "Creating validated case repository...",
   "Optimizing for upper 90s accuracy...",
   "Finalizing Agentic Loop system..."]

/-- Phase 5 step list of stage 2 (lines 144-153). -/
def phase5Steps : List String :=
  ["Setting up continuous evaluation harness...",
   "Building gold standard test sets...",
   "Implementing regression monitoring...",
   "Creating feedback capture system...",
   "Building automated hardening pipeline...",
   "Implementing accuracy maintenance...",
   "Achieving at least 95% in-scope accuracy...",
   "Finalizing continuous eval system..."]

/-- The step-list lookup `phase_steps.get(output_phase, phase_steps[1])`
(line 156): any phase outside 1-5 falls back to the phase 1 list. -/
def phaseStepsFor (phase : Int) : List String :=
  if phase = 1 then phase1Steps
  else if phase = 2 then phase2Steps
  else if phase = 3 then phase3Steps
  else if phase = 4 then phase4Steps
  else if phase = 5 then phase5Steps
  else phase1Steps

/-- The `k`-th message of a stage-2 run (0-based over the flattened
file-major (file, step) loop, lines 161-196): global index `k+1` of
`totalSteps`, progress `(k+1)/totalSteps*100`, status `completed` exactly
on the last message.  The synthetic-example counter is elided (it depends
on the salted Python `hash` builtin and no claim refers to it). -/
def stage2Msg (pdfFiles : List String) (steps : List String)
    (totalSteps k : Nat) : StageMsg :=
  let fileIdx := k / steps.length
  let stepText := steps.getD (k % steps.length) ""
  { stage := 2,
    status := if k + 1 = totalSteps then "completed" else "running",
    progress := ((k + 1 : ℚ) / (totalSteps : ℚ)) * 100,
    current_step :=
      if pdfFiles.length > 1 then
        "[File " ++ toString (fileIdx + 1) ++ "/" ++ toString pdfFiles.length ++
        ": " ++ pdfFiles.getD fileIdx "" ++ "] " ++ stepText
      else stepText }

/-- The full yielded trace of a stage-2 run on a non-empty file list. -/
def stage2Trace (pdfFiles : List String) (outputPhase : Int) : List StageMsg :=
  let steps := phaseStepsFor outputPhase
  let totalSteps := steps.length * pdfFiles.length
  (List.range totalSteps).map (stage2Msg pdfFiles steps totalSteps)

/-- Embedding of `run_stage2` (lines 83-199): `ValueError` on an empty
file list; otherwise the flattened per-file step trace. -/
def runStage2 (pdfFiles : List String) (outputPhase : Int) :
    Except String (List StageMsg) :=
  if pdfFiles.isEmpty then .error "No PDF files provided for Stage 2"
  else .ok (stage2Trace pdfFiles outputPhase)

end Pipeline

/-! ## Run-goodness predicates

A streamed run is viewed through two projections: the list of overall
progress values and the list of status strings of its yielded messages. -/

/-- A terminal status in the sense of the spec: `completed` or `error`. -/
def terminalStatus (s : String) : Bool :=
  s == "completed" || s == "error"

/-- The progress sequence never decreases. -/
def NonDecr (l : List ℚ) : Prop :=
  l.Pairwise (· ≤ ·)

/-- The property claimed by the spec for every single streamed run:
progress non-decreasing, the run ends with a terminal-status message,
that terminal message is unique, and `completed` and `error` never both
occur in one run. -/
def SingleTerminalRun (ps : List ℚ) (ss : List String) : Prop :=
  NonDecr ps ∧
  (∃ s, ss.getLast? = some s ∧ terminalStatus s = true) ∧
  ss.countP terminalStatus = 1 ∧
  ¬("error" ∈ ss ∧ "completed" ∈ ss)

/-- A failure-free run: progress non-decreasing, exactly one terminal
message, it is the final `completed` message, and no `error` status at
all. -/
def CleanRun (ps : List ℚ) (ss : List String) : Prop :=
  NonDecr ps ∧ ss.getLast? = some "completed" ∧
  ss.countP terminalStatus = 1 ∧ "error" ∉ ss

/-- A run that always finishes: progress non-decreasing and exactly one
`completed`-status message, placed at the end — but `error`-status
messages may occur mid-run. -/
def CompletedRun (ps : List ℚ) (ss : List String) : Prop :=
  NonDecr ps ∧ ss.getLast? = some "completed" ∧
  ss.countP (fun s => s == "completed") = 1

/-! ### Generic list lemmas for the trace proofs -/

/-- Mapping a monotone function over `List.range` yields a non-decreasing
list. -/
theorem pairwise_le_map_range (f : ℕ → ℚ)
    (hf : ∀ i j, i ≤ j → f i ≤ f j) (n : ℕ) :
    ((List.range n).map f).Pairwise (· ≤ ·) :=
  List.Pairwise.map f (fun _ _ hab => hf _ _ hab.le) (List.pairwise_lt_range n)

/-- A predicate holding only at the last index of `List.range n` is
counted exactly once. -/
theorem countP_range_last (n : ℕ) (hn : 0 < n) (p : ℕ → Bool)
    (h : ∀ k, k < n → (p k = true ↔ k + 1 = n)) :
    (List.range n).countP p = 1 := by
  obtain ⟨m, rfl⟩ := Nat.exists_eq_succ_of_ne_zero hn.ne'
  rw [List.range_succ, List.countP_append]
  have h1 : (List.range m).countP p = 0 := by
    apply List.countP_eq_zero.mpr
    intro k hk
    have hk2 : k < m := List.mem_range.mp hk
    intro hp
    have := (h k (Nat.lt_succ_of_lt hk2)).mp hp
    omega
  have h2 : List.countP p [m] = 1 := by
    have : p m = true := (h m (Nat.lt_succ_self m)).mpr rfl
    simp [List.countP_cons, this]
  omega

/-- The last element of a map over `List.range (m+1)` is the image of
`m`. -/
theorem getLast?_map_range {α : Type} (f : ℕ → α) (m : ℕ) :
    ((List.range (m + 1)).map f).getLast? = some (f m) := by
  rw [List.range_succ, List.map_append]
  simp


/-! ### Clean-run lemmas for the individual operations -/

/-- Stage 1 yields six messages with evenly spaced non-decreasing progress
and a single terminal `completed`. -/
theorem stage1_cleanRun :
    CleanRun (Pipeline.runStage1.map Pipeline.StageMsg.progress)
             (Pipeline.runStage1.map Pipeline.StageMsg.status) := by
  refine ⟨?_, ?_, ?_, ?_⟩ <;>
    norm_num [CleanRun, NonDecr, Pipeline.runStage1, Pipeline.stage1Steps,
      List.range_succ, List.pairwise_cons, terminalStatus, List.countP_cons,
      List.countP_append] <;> decide

/-- Every phase step list is non-empty. -/
theorem phaseStepsFor_pos (phase : Int) :
    0 < (Pipeline.phaseStepsFor phase).length := by
  unfold Pipeline.phaseStepsFor
  split_ifs <;> decide

/-- A stage-2 run on a non-empty file list succeeds and its trace is a
clean run: non-decreasing progress, one terminal `completed` at the end,
no `error` status. -/
theorem stage2_cleanRun (pdfFiles : List String) (phase : Int)
    (h : pdfFiles ≠ []) :
    Pipeline.runStage2 pdfFiles phase = .ok (Pipeline.stage2Trace pdfFiles phase) ∧
    CleanRun ((Pipeline.stage2Trace pdfFiles phase).map Pipeline.StageMsg.progress)
             ((Pipeline.stage2Trace pdfFiles phase).map Pipeline.StageMsg.status) := by
  have hne : pdfFiles.isEmpty = false := by simp [List.isEmpty_iff, h]
  have hT : 0 < (Pipeline.phaseStepsFor phase).length * pdfFiles.length :=
    Nat.mul_pos (phaseStepsFor_pos phase) (List.length_pos.mpr h)
  constructor
  · simp [Pipeline.runStage2, hne]
  set steps := Pipeline.phaseStepsFor phase
  set T := steps.length * pdfFiles.length with hTdef
  have hTQ : (0 : ℚ) < (T : ℚ) := by exact_mod_cast hT
  refine ⟨?_, ?_, ?_, ?_⟩
  · -- progress non-decreasing
    unfold NonDecr Pipeline.stage2Trace
    rw [List.map_map]
    apply pairwise_le_map_range
    intro i j hij
    simp only [Function.comp, Pipeline.stage2Msg]
    gcongr
  · -- ends with completed
    obtain ⟨m, hm⟩ := Nat.exists_eq_succ_of_ne_zero hT.ne'
    unfold Pipeline.stage2Trace
    rw [List.map_map, ← hTdef, hm, getLast?_map_range]
    simp [Function.comp, Pipeline.stage2Msg, ← hm]
  · -- exactly one terminal message
    unfold Pipeline.stage2Trace
    rw [List.map_map, ← hTdef, List.countP_map]
    apply countP_range_last T hT
    intro k hk
    by_cases hkT : k + 1 = T <;>
      simp [Function.comp, Pipeline.stage2Msg, hkT, terminalStatus]
  · -- no error status
    unfold Pipeline.stage2Trace
    rw [List.map_map, ← hTdef]
    intro hmem
    obtain ⟨k, _, hk⟩ := List.mem_map.mp hmem
    by_cases hkT : k + 1 = T <;>
      simp [Function.comp, Pipeline.stage2Msg, hkT] at hk

/-- Counting over a replicated list. -/
theorem countP_replicate (p : String → Bool) (n : Nat) (a : String) :
    (List.replicate n a).countP p = if p a then n else 0 := by
  induction n with
  | zero => simp
  | succ m ih =>
    simp [List.replicate_succ, List.countP_cons, ih]
    split <;> simp

/-- An agent run is a clean run: milestones 20/40/60 (held during the
per-query loop)/80/90/100, single terminal `completed`, no `error`
status. -/
theorem agent_cleanRun (query certLevel : String) :
    CleanRun ((Agent.runAgent query certLevel).map Agent.AgentMsg.overallProgress)
             ((Agent.runAgent query certLevel).map Agent.AgentMsg.status) := by
  refine ⟨?_, ?_, ?_, ?_⟩
  · unfold NonDecr Agent.runAgent
    norm_num [List.map_append, List.map_cons, List.map_map, Function.comp,
      List.map_const', List.length_range, List.pairwise_append,
      List.pairwise_cons, List.mem_replicate, List.mem_append, List.mem_cons,
      List.pairwise_replicate]
    refine ⟨?_, ?_, ?_⟩ <;> rintro a (⟨-, rfl⟩ | rfl | rfl | rfl) <;> norm_num
  · unfold Agent.runAgent
    simp only [List.map_append, List.map_cons, List.map_map, Function.comp,
      List.map_const', List.length_range]
    rw [List.getLast?_append]
    simp
  · unfold Agent.runAgent
    simp [List.map_append, List.map_cons, List.map_map, Function.comp,
      List.map_const', List.length_range, List.countP_append,
      List.countP_cons, countP_replicate, terminalStatus]
  · unfold Agent.runAgent
    simp [List.map_append, List.map_cons, List.map_map, Function.comp,
      List.map_const', List.length_range, List.mem_append, List.mem_cons,
      List.mem_replicate]

/-- The discovery query generator always produces at least one query
(five base queries, eight with a certification level). -/
theorem generateSearchQueries_pos (topic certLevel : String) :
    0 < (Discovery.generateSearchQueries topic certLevel).length := by
  unfold Discovery.generateSearchQueries
  split_ifs <;> simp

/-- The progress projection of a discovery trace in closed form. -/
theorem discovery_progress_form (md5hex : String → String)
    (now topic certLevel : String) (maxDocs : Nat) (hashes : List String)
    (searchWeb : String → List Discovery.Doc) :
    (Discovery.discoverDocuments md5hex now topic certLevel maxDocs hashes searchWeb).1.map
        Discovery.ProgMsg.progress =
      0 :: 20 :: 40 ::
        (((List.range (Discovery.generateSearchQueries topic certLevel).length).map
          (fun (i : Nat) => (40:ℚ) +
            (((i:ℚ) + 1) / ((Discovery.generateSearchQueries topic certLevel).length : ℚ)) * 30)) ++
         [70, 90, 100]) := by
  simp [Discovery.discoverDocuments, Function.comp_def]

/-- The status projection of a discovery trace in closed form. -/
theorem discovery_status_form (md5hex : String → String)
    (now topic certLevel : String) (maxDocs : Nat) (hashes : List String)
    (searchWeb : String → List Discovery.Doc) :
    (Discovery.discoverDocuments md5hex now topic certLevel maxDocs hashes searchWeb).1.map
        Discovery.ProgMsg.status =
      "running" :: "running" :: "running" ::
        (List.replicate (Discovery.generateSearchQueries topic certLevel).length "running" ++
         ["running", "running", "completed"]) := by
  simp [Discovery.discoverDocuments, Function.comp_def, List.map_const']


/-- One value of the linear search segment of a discovery run lies in
[40, 70]. -/
theorem discovery_val_bounds {n i : Nat} (hi : i < n) :
    (40:ℚ) ≤ 40 + (((i:ℚ) + 1) / (n:ℚ)) * 30 ∧
    40 + (((i:ℚ) + 1) / (n:ℚ)) * 30 ≤ 70 := by
  have hn : 0 < n := Nat.lt_of_le_of_lt (Nat.zero_le i) hi
  have hnQ : (0:ℚ) < (n:ℚ) := by exact_mod_cast hn
  constructor
  · have : (0:ℚ) ≤ ((i:ℚ) + 1) / (n:ℚ) * 30 := by positivity
    linarith
  · have hiq : ((i:ℚ) + 1) ≤ (n:ℚ) := by exact_mod_cast hi
    have h1 : ((i:ℚ) + 1) / (n:ℚ) ≤ 1 := (div_le_one hnQ).mpr hiq
    nlinarith

/-- A discovery run is a clean run: milestones 0/20/40 (then linear to
70)/70/90/100, single terminal `completed`, no `error` status. -/
theorem discovery_cleanRun (md5hex : String → String)
    (now topic certLevel : String) (maxDocs : Nat) (hashes : List String)
    (searchWeb : String → List Discovery.Doc) :
    CleanRun
      ((Discovery.discoverDocuments md5hex now topic certLevel maxDocs hashes searchWeb).1.map
        Discovery.ProgMsg.progress)
      ((Discovery.discoverDocuments md5hex now topic certLevel maxDocs hashes searchWeb).1.map
        Discovery.ProgMsg.status) := by
  refine ⟨?_, ?_, ?_, ?_⟩
  · unfold NonDecr
    rw [discovery_progress_form]
    refine List.Pairwise.cons ?_ (List.Pairwise.cons ?_ (List.Pairwise.cons ?_ ?_))
    · intro b hb
      simp only [List.mem_cons, List.mem_append, List.mem_map, List.mem_range] at hb
      rcases hb with rfl | rfl | ⟨i, hi, rfl⟩ | rfl | rfl | rfl | h
      · norm_num
      · norm_num
      · linarith [(discovery_val_bounds hi).1]
      · norm_num
      · norm_num
      · norm_num
      · simp at h
    · intro b hb
      simp only [List.mem_cons, List.mem_append, List.mem_map, List.mem_range] at hb
      rcases hb with rfl | ⟨i, hi, rfl⟩ | rfl | rfl | rfl | h
      · norm_num
      · linarith [(discovery_val_bounds hi).1]
      · norm_num
      · norm_num
      · norm_num
      · simp at h
    · intro b hb
      simp only [List.mem_append, List.mem_cons, List.mem_map, List.mem_range] at hb
      rcases hb with ⟨i, hi, rfl⟩ | rfl | rfl | rfl | h
      · linarith [(discovery_val_bounds hi).1]
      · norm_num
      · norm_num
      · norm_num
      · simp at h
    · rw [List.pairwise_append]
      refine ⟨pairwise_le_map_range _ ?_ _, by norm_num [List.pairwise_cons], ?_⟩
      · intro i j hij
        gcongr
      · intro a ha b hb
        obtain ⟨i, hi, rfl⟩ := List.mem_map.mp ha
        have h70 := (discovery_val_bounds (List.mem_range.mp hi)).2
        simp only [List.mem_cons] at hb
        rcases hb with rfl | rfl | rfl | h
        · linarith
        · linarith
        · linarith
        · simp at h
  · rw [discovery_status_form]
    rw [List.getLast?_cons, List.getLast?_cons, List.getLast?_cons,
      List.getLast?_append]
    simp
  · rw [discovery_status_form]
    simp [List.countP_cons, List.countP_append, countP_replicate, terminalStatus]
  · rw [discovery_status_form]
    simp [List.mem_cons, List.mem_append, List.mem_replicate]

/-! ### Local file ingestion lemmas -/

/-- The per-file loop emits one document per `ok` outcome. -/
theorem processFilesGo_results (t : ℚ) (jobs : List Discovery.FileJob)
    (cur : Nat) :
    (Discovery.processFilesGo t jobs cur).2.length =
      jobs.countP Discovery.FileJob.isOk := by
  induction jobs generalizing cur with
  | nil => simp [Discovery.processFilesGo]
  | cons j rest ih =>
    cases houtcome : j.outcome <;>
      simp [Discovery.processFilesGo, houtcome, List.countP_cons,
        Discovery.FileJob.isOk, ih]

/-- Every status emitted by the per-file loop is `running` or `error`. -/
theorem processFilesGo_status (t : ℚ) (jobs : List Discovery.FileJob)
    (cur : Nat) :
    ∀ s ∈ (Discovery.processFilesGo t jobs cur).1.map Discovery.ProgMsg.status,
      s = "running" ∨ s = "error" := by
  induction jobs generalizing cur with
  | nil => simp [Discovery.processFilesGo]
  | cons j rest ih =>
    intro s hs
    cases houtcome : j.outcome <;>
      simp only [Discovery.processFilesGo, houtcome, List.map_cons,
        List.mem_cons] at hs
    · rcases hs with rfl | hs
      · left; rfl
      · exact ih _ s hs
    · rcases hs with rfl | hs
      · left; rfl
      · exact ih _ s hs
    · rcases hs with rfl | rfl | hs
      · left; rfl
      · right; rfl
      · exact ih _ s hs

/-- The per-file loop's progress values are non-decreasing and bounded by
the window from `(cur+1)/t*80` to `(cur+len)/t*80`. -/
theorem processFilesGo_progress (t : ℚ) (ht : 0 < t)
    (jobs : List Discovery.FileJob) (cur : Nat) :
    ((Discovery.processFilesGo t jobs cur).1.map Discovery.ProgMsg.progress).Pairwise (· ≤ ·) ∧
    ∀ p ∈ (Discovery.processFilesGo t jobs cur).1.map Discovery.ProgMsg.progress,
      (((cur:ℚ) + 1) / t) * 80 ≤ p ∧
      p ≤ (((cur:ℚ) + (jobs.length : ℚ)) / t) * 80 := by
  have hmono : ∀ a b : ℚ, a ≤ b → a / t * 80 ≤ b / t * 80 := by
    intro a b h
    gcongr
  induction jobs generalizing cur with
  | nil => simp [Discovery.processFilesGo]
  | cons j rest ih =>
    obtain ⟨ihP, ihB⟩ := ih (cur + 1)
    push_cast at ihB
    have hL : (0:ℚ) ≤ (rest.length : ℚ) := Nat.cast_nonneg _
    have hlow : ∀ p ∈ (Discovery.processFilesGo t rest (cur + 1)).1.map
        Discovery.ProgMsg.progress, ((cur:ℚ) + 1) / t * 80 ≤ p := by
      intro p hp
      have h1 := (ihB p hp).1
      have h2 := hmono ((cur:ℚ) + 1) ((cur:ℚ) + 1 + 1) (by linarith)
      linarith
    have hhigh : ∀ p ∈ (Discovery.processFilesGo t rest (cur + 1)).1.map
        Discovery.ProgMsg.progress,
        p ≤ ((cur:ℚ) + ((rest.length : ℚ) + 1)) / t * 80 := by
      intro p hp
      have h2 := (ihB p hp).2
      have h3 : ((cur:ℚ) + 1 + (rest.length:ℚ)) / t * 80 =
          ((cur:ℚ) + ((rest.length : ℚ) + 1)) / t * 80 := by ring_nf
      linarith
    have hheadhigh : ((cur:ℚ) + 1) / t * 80 ≤
        ((cur:ℚ) + ((rest.length : ℚ) + 1)) / t * 80 :=
      hmono _ _ (by linarith)
    cases houtcome : j.outcome <;>
      simp only [Discovery.processFilesGo, houtcome, List.map_cons,
        List.length_cons, List.pairwise_cons, List.mem_cons] <;>
      push_cast
    case ok d =>
      refine ⟨⟨hlow, ihP⟩, ?_⟩
      rintro p (rfl | hp)
      · exact ⟨le_rfl, hheadhigh⟩
      · exact ⟨hlow p hp, hhigh p hp⟩
    case skipped =>
      refine ⟨⟨hlow, ihP⟩, ?_⟩
      rintro p (rfl | hp)
      · exact ⟨le_rfl, hheadhigh⟩
      · exact ⟨hlow p hp, hhigh p hp⟩
    case raised e =>
      refine ⟨⟨?_, hlow, ihP⟩, ?_⟩
      · rintro p (rfl | hp)
        · exact le_rfl
        · exact hlow p hp
      · rintro p (rfl | rfl | hp)
        · exact ⟨le_rfl, hheadhigh⟩
        · exact ⟨le_rfl, hheadhigh⟩
        · exact ⟨hlow p hp, hhigh p hp⟩

/-- Progress projection of a local-file run without a directory. -/
theorem plf_progress_form_none (files : List Discovery.FileJob) :
    (Discovery.processLocalFiles files none).1.map Discovery.ProgMsg.progress =
      0 :: ((Discovery.processFilesGo (files.length : ℚ) files 0).1.map
              Discovery.ProgMsg.progress ++ [90, 100]) := by
  simp [Discovery.processLocalFiles]

/-- Status projection of a local-file run without a directory. -/
theorem plf_status_form_none (files : List Discovery.FileJob) :
    (Discovery.processLocalFiles files none).1.map Discovery.ProgMsg.status =
      "running" :: ((Discovery.processFilesGo (files.length : ℚ) files 0).1.map
              Discovery.ProgMsg.status ++ ["running", "completed"]) := by
  simp [Discovery.processLocalFiles]

/-- Progress projection of a local-file run with a directory. -/
theorem plf_progress_form_some (files : List Discovery.FileJob)
    (d : Discovery.DirOutcome) :
    (Discovery.processLocalFiles files (some d)).1.map Discovery.ProgMsg.progress =
      0 :: ((Discovery.processFilesGo ((files.length : ℚ) + 1) files 0).1.map
              Discovery.ProgMsg.progress ++
            ((match d with
              | .ok _ => [(((files.length : ℚ) + 1) / ((files.length : ℚ) + 1)) * 80]
              | .raised _ => [(((files.length : ℚ) + 1) / ((files.length : ℚ) + 1)) * 80,
                              (((files.length : ℚ) + 1) / ((files.length : ℚ) + 1)) * 80]) ++
             [90, 100])) := by
  cases d <;> simp [Discovery.processLocalFiles]

/-- Status projection of a local-file run with a directory. -/
theorem plf_status_form_some (files : List Discovery.FileJob)
    (d : Discovery.DirOutcome) :
    (Discovery.processLocalFiles files (some d)).1.map Discovery.ProgMsg.status =
      "running" :: ((Discovery.processFilesGo ((files.length : ℚ) + 1) files 0).1.map
              Discovery.ProgMsg.status ++
            ((match d with
              | .ok _ => ["running"]
              | .raised _ => ["running", "error"]) ++
             ["running", "completed"])) := by
  cases d <;> simp [Discovery.processLocalFiles]

/-- A local-file ingestion run always terminates with a single `completed`
message at the end, and progress never decreases — even when individual
files or the directory scan fail (which inserts mid-run `error`
messages). -/
theorem processLocalFiles_completedRun (files : List Discovery.FileJob)
    (dir : Option Discovery.DirOutcome) :
    CompletedRun
      ((Discovery.processLocalFiles files dir).1.map Discovery.ProgMsg.progress)
      ((Discovery.processLocalFiles files dir).1.map Discovery.ProgMsg.status) := by
  cases dir with
  | none =>
    refine ⟨?_, ?_, ?_⟩
    · unfold NonDecr
      rw [plf_progress_form_none]
      by_cases hf : files = []
      · subst hf
        norm_num [Discovery.processFilesGo, List.pairwise_cons]
      · have hlen : 0 < files.length := List.length_pos.mpr hf
        have ht : (0:ℚ) < (files.length : ℚ) := by exact_mod_cast hlen
        obtain ⟨hP, hB⟩ := processFilesGo_progress _ ht files 0
        simp only [Nat.cast_zero, zero_add] at hB
        have hself : ((files.length : ℚ)) / (files.length : ℚ) * 80 = 80 := by
          rw [div_self ht.ne']; ring
        have hlow : ∀ b ∈ (Discovery.processFilesGo (files.length : ℚ) files 0).1.map
            Discovery.ProgMsg.progress, (0:ℚ) ≤ b := by
          intro b hb
          have h1 := (hB b hb).1
          have h0 : (0:ℚ) ≤ 1 / (files.length : ℚ) * 80 := by positivity
          linarith
        have hup : ∀ b ∈ (Discovery.processFilesGo (files.length : ℚ) files 0).1.map
            Discovery.ProgMsg.progress, b ≤ 80 := by
          intro b hb
          have h2 := (hB b hb).2
          linarith [hself]
        refine List.Pairwise.cons ?_ ?_
        · intro b hb
          rcases List.mem_append.mp hb with hb | hb
          · exact hlow b hb
          · simp only [List.mem_cons, List.not_mem_nil, or_false] at hb
            rcases hb with rfl | rfl <;> norm_num
        · rw [List.pairwise_append]
          refine ⟨hP, by norm_num [List.pairwise_cons], ?_⟩
          intro a ha b hb
          have h80 := hup a ha
          simp only [List.mem_cons, List.not_mem_nil, or_false] at hb
          rcases hb with rfl | rfl <;> linarith
    · rw [plf_status_form_none, ← List.cons_append, List.getLast?_append]
      simp
    · rw [plf_status_form_none]
      have hstat := processFilesGo_status (files.length : ℚ) files 0
      have h0 : ((Discovery.processFilesGo (files.length : ℚ) files 0).1.map
          Discovery.ProgMsg.status).countP (fun s => s == "completed") = 0 := by
        apply List.countP_eq_zero.mpr
        intro s hs
        rcases hstat s hs with rfl | rfl <;> simp
      simp [List.countP_cons, List.countP_append, h0]
  | some d =>
    have ht : (0:ℚ) < (files.length : ℚ) + 1 := by positivity
    have hself : ((files.length : ℚ) + 1) / ((files.length : ℚ) + 1) * 80 = 80 := by
      rw [div_self ht.ne']; ring
    refine ⟨?_, ?_, ?_⟩
    · unfold NonDecr
      rw [plf_progress_form_some]
      obtain ⟨hP, hB⟩ := processFilesGo_progress _ ht files 0
      simp only [Nat.cast_zero, zero_add] at hB
      have hlow : ∀ b ∈ (Discovery.processFilesGo ((files.length : ℚ) + 1) files 0).1.map
          Discovery.ProgMsg.progress, (0:ℚ) ≤ b := by
        intro b hb
        have h1 := (hB b hb).1
        have h0 : (0:ℚ) ≤ 1 / ((files.length : ℚ) + 1) * 80 := by positivity
        linarith
      have hup : ∀ b ∈ (Discovery.processFilesGo ((files.length : ℚ) + 1) files 0).1.map
          Discovery.ProgMsg.progress, b ≤ 80 := by
        intro b hb
        have h2 := (hB b hb).2
        have hq : (files.length : ℚ) / ((files.length : ℚ) + 1) ≤ 1 :=
          (div_le_one ht).mpr (by linarith)
        nlinarith
      have hdirmem : ∀ b : ℚ, b ∈ (match d with
          | Discovery.DirOutcome.ok _ =>
              [(((files.length : ℚ) + 1) / ((files.length : ℚ) + 1)) * 80]
          | Discovery.DirOutcome.raised _ =>
              [(((files.length : ℚ) + 1) / ((files.length : ℚ) + 1)) * 80,
               (((files.length : ℚ) + 1) / ((files.length : ℚ) + 1)) * 80]) →
          b = 80 := by
        cases d with
        | ok ds =>
          intro b hb
          simp only [List.mem_cons, List.not_mem_nil, or_false] at hb
          rw [hb, hself]
        | raised e =>
          intro b hb
          simp only [List.mem_cons, List.not_mem_nil, or_false] at hb
          rcases hb with rfl | rfl <;> rw [hself]
      refine List.Pairwise.cons ?_ ?_
      · intro b hb
        rcases List.mem_append.mp hb with hb | hb
        · exact hlow b hb
        · rcases List.mem_append.mp hb with hb | hb
          · rw [hdirmem b hb]; norm_num
          · simp only [List.mem_cons, List.not_mem_nil, or_false] at hb
            rcases hb with rfl | rfl <;> norm_num
      · rw [List.pairwise_append]
        refine ⟨hP, ?_, ?_⟩
        · rw [List.pairwise_append]
          refine ⟨?_, by norm_num [List.pairwise_cons], ?_⟩
          · cases d <;> norm_num [List.pairwise_cons, hself]
          · intro a ha b hb
            rw [hdirmem a ha]
            simp only [List.mem_cons, List.not_mem_nil, or_false] at hb
            rcases hb with rfl | rfl <;> norm_num
        · intro a ha b hb
          have h80 := hup a ha
          rcases List.mem_append.mp hb with hb | hb
          · rw [hdirmem b hb]; linarith
          · simp only [List.mem_cons, List.not_mem_nil, or_false] at hb
            rcases hb with rfl | rfl <;> linarith
    · rw [plf_status_form_some, ← List.cons_append, List.getLast?_append]
      cases d <;> simp
    · rw [plf_status_form_some]
      have hstat := processFilesGo_status ((files.length : ℚ) + 1) files 0
      have h0 : ((Discovery.processFilesGo ((files.length : ℚ) + 1) files 0).1.map
          Discovery.ProgMsg.status).countP (fun s => s == "completed") = 0 := by
        apply List.countP_eq_zero.mpr
        intro s hs
        rcases hstat s hs with rfl | rfl <;> simp
      cases d <;> simp [List.countP_cons, List.countP_append, h0]

/-! ### Validation and organization lemmas -/

/-- Mapping a field that `mapIdx`'s function leaves unchanged commutes
with the index-aware rewrite. -/
theorem map_mapIdx_invariant {α : Type} (l : List Discovery.Doc)
    (f : Nat → Discovery.Doc → Discovery.Doc) (g : Discovery.Doc → α)
    (hf : ∀ i d, g (f i d) = g d) :
    (l.mapIdx f).map g = l.map g := by
  induction l generalizing f with
  | nil => simp
  | cons d rest ih =>
    rw [List.mapIdx_cons, List.map_cons, List.map_cons, hf 0 d,
      ih (fun i => f (i + 1)) (fun i d => hf (i + 1) d)]

/-- Mapping a field that `mapIdx`'s function sets from the index alone
yields the image of `List.range`. -/
theorem map_mapIdx_indexed {α : Type} (l : List Discovery.Doc)
    (f : Nat → Discovery.Doc → Discovery.Doc) (g : Discovery.Doc → α)
    (r : Nat → α) (hf : ∀ i d, g (f i d) = r i) :
    (l.mapIdx f).map g = (List.range l.length).map r := by
  induction l generalizing f r with
  | nil => simp
  | cons d rest ih =>
    rw [List.mapIdx_cons, List.map_cons, hf 0 d, List.length_cons,
      List.range_succ_eq_map, List.map_cons, List.map_map,
      ih (fun i => f (i + 1)) (fun i => r (i + 1)) (fun i d => hf (i + 1) d)]
    rfl

/-- A pointwise property of `mapIdx`'s function holds of every element of
its result. -/
theorem forall_mem_mapIdx (l : List Discovery.Doc)
    (f : Nat → Discovery.Doc → Discovery.Doc) (P : Discovery.Doc → Prop)
    (hf : ∀ i d, P (f i d)) : ∀ d ∈ l.mapIdx f, P d := by
  induction l generalizing f with
  | nil => simp
  | cons a rest ih =>
    intro d hd
    rw [List.mapIdx_cons] at hd
    rcases List.mem_cons.mp hd with rfl | hd
    · exact hf 0 a
    · exact ih (fun i => f (i + 1)) (fun i d => hf (i + 1) d) d hd

/-- The URL dedup invariant of `_validate_documents`: no produced document
carries a URL already seen, and the produced URLs are pairwise distinct. -/
theorem validateGo_urls (md5hex : String → String) (now : String) :
    ∀ (docs : List Discovery.Doc) (seen hashes : List String),
      (∀ v ∈ (Discovery.validateGo md5hex now docs seen hashes).1, v.url ∉ seen) ∧
      ((Discovery.validateGo md5hex now docs seen hashes).1.map Discovery.Doc.url).Nodup := by
  intro docs
  induction docs with
  | nil => intro seen hashes; simp [Discovery.validateGo]
  | cons d rest ih =>
    intro seen hashes
    by_cases hurl : d.url ∈ seen
    · simp only [Discovery.validateGo, if_pos hurl]
      exact ih seen hashes
    · by_cases hh : Discovery.docHash md5hex d ∈ hashes
      · simp only [Discovery.validateGo, if_neg hurl, if_pos hh]
        obtain ⟨h1, h2⟩ := ih (d.url :: seen) hashes
        exact ⟨fun v hv hvseen => h1 v hv (List.mem_cons_of_mem _ hvseen), h2⟩
      · simp only [Discovery.validateGo, if_neg hurl, if_neg hh]
        obtain ⟨h1, h2⟩ := ih (d.url :: seen) (Discovery.docHash md5hex d :: hashes)
        constructor
        · intro v hv
          rcases List.mem_cons.mp hv with rfl | hv
          · simpa using hurl
          · exact fun hvseen => h1 v hv (List.mem_cons_of_mem _ hvseen)
        · rw [List.map_cons]
          refine List.nodup_cons.mpr ⟨?_, h2⟩
          intro hmem
          obtain ⟨v, hv, hvurl⟩ := List.mem_map.mp hmem
          apply h1 v hv
          rw [hvurl]
          simp

/-- Hash freshness of `_validate_documents`: every produced document's
derived content hash was absent from the incoming process-wide hash set. -/
theorem validateGo_hash_fresh (md5hex : String → String) (now : String) :
    ∀ (docs : List Discovery.Doc) (seen hashes : List String),
      ∀ v ∈ (Discovery.validateGo md5hex now docs seen hashes).1,
        Discovery.docHash md5hex v ∉ hashes := by
  intro docs
  induction docs with
  | nil => intro seen hashes; simp [Discovery.validateGo]
  | cons d rest ih =>
    intro seen hashes
    by_cases hurl : d.url ∈ seen
    · simp only [Discovery.validateGo, if_pos hurl]
      exact ih seen hashes
    · by_cases hh : Discovery.docHash md5hex d ∈ hashes
      · simp only [Discovery.validateGo, if_neg hurl, if_pos hh]
        exact ih (d.url :: seen) hashes
      · simp only [Discovery.validateGo, if_neg hurl, if_neg hh]
        intro v hv
        rcases List.mem_cons.mp hv with rfl | hv
        · simpa [Discovery.docHash] using hh
        · intro hmem
          exact ih (d.url :: seen) (Discovery.docHash md5hex d :: hashes) v hv
            (List.mem_cons_of_mem _ hmem)

/-- Core properties of `_organize_documents`: the result is capped at
`maxDocs`, sorted by non-increasing relevance, URL-nodup when the input
is, carries 1-based ranks in order, and stamps `discovered_at`. -/
theorem organize_core (now : String) (docs : List Discovery.Doc) (k : Nat) :
    (Discovery.organizeDocuments now docs k).length ≤ k ∧
    ((Discovery.organizeDocuments now docs k).map Discovery.Doc.relevance).Pairwise (· ≥ ·) ∧
    ((docs.map Discovery.Doc.url).Nodup →
      ((Discovery.organizeDocuments now docs k).map Discovery.Doc.url).Nodup) ∧
    (Discovery.organizeDocuments now docs k).map Discovery.Doc.rank =
      (List.range (Discovery.organizeDocuments now docs k).length).map
        (fun i => some (i + 1)) ∧
    ∀ d ∈ Discovery.organizeDocuments now docs k, d.discovered_at = some now := by
  have hsorted : ((docs.mergeSort Discovery.relevanceDesc).map
      Discovery.Doc.relevance).Pairwise (· ≥ ·) := by
    have h := @List.sorted_mergeSort Discovery.Doc Discovery.relevanceDesc
      (by
        intro a b c h1 h2
        simp only [Discovery.relevanceDesc, decide_eq_true_eq] at h1 h2 ⊢
        linarith)
      (by
        intro a b
        simp only [Discovery.relevanceDesc]
        rcases le_total b.relevance a.relevance with h | h <;> simp [h])
      docs
    refine List.Pairwise.map _ ?_ h
    intro a b hab
    simp only [Discovery.relevanceDesc, decide_eq_true_eq] at hab
    exact hab
  have hlen : (Discovery.organizeDocuments now docs k).length =
      ((docs.mergeSort Discovery.relevanceDesc).take k).length := by
    simp [Discovery.organizeDocuments]
  refine ⟨?_, ?_, ?_, ?_, ?_⟩
  · rw [hlen, List.length_take]
    exact min_le_left k _
  · unfold Discovery.organizeDocuments
    rw [map_mapIdx_invariant _ (Discovery.organizeUpdate now)
      Discovery.Doc.relevance (fun i d => rfl)]
    exact (hsorted.sublist ((List.take_sublist k _).map _))
  · intro hnodup
    unfold Discovery.organizeDocuments
    rw [map_mapIdx_invariant _ (Discovery.organizeUpdate now)
      Discovery.Doc.url (fun i d => rfl)]
    have hperm : List.Perm ((docs.mergeSort Discovery.relevanceDesc).map
        Discovery.Doc.url) (docs.map Discovery.Doc.url) :=
      (List.mergeSort_perm docs Discovery.relevanceDesc).map _
    have hsortnodup : ((docs.mergeSort Discovery.relevanceDesc).map
        Discovery.Doc.url).Nodup := hperm.symm.nodup hnodup
    exact hsortnodup.sublist ((List.take_sublist k _).map _)
  · rw [hlen]
    unfold Discovery.organizeDocuments
    exact map_mapIdx_indexed _ (Discovery.organizeUpdate now)
      Discovery.Doc.rank (fun i => some (i + 1)) (fun i d => rfl)
  · unfold Discovery.organizeDocuments
    exact forall_mem_mapIdx _ (Discovery.organizeUpdate now)
      (fun d => d.discovered_at = some now) (fun i d => rfl)

/-! ## Claim theorems -/

/-- C1 (amended): for discovery, agent, stage-1 and stage-2 runs the
progress sequence is non-decreasing and the run ends with exactly one
terminal message, which is `completed`, with no `error`-status message at
all; a local-file ingestion run also has non-decreasing progress and ends
with exactly one `completed`-status message, but per-item failures insert
mid-run `error`-status messages, so one run can contain both statuses. -/
theorem claim_progress_stream_amended :
    (∀ (md5hex : String → String) (now topic certLevel : String)
       (maxDocs : Nat) (hashes : List String)
       (searchWeb : String → List Discovery.Doc),
       CleanRun
         ((Discovery.discoverDocuments md5hex now topic certLevel maxDocs hashes searchWeb).1.map
           Discovery.ProgMsg.progress)
         ((Discovery.discoverDocuments md5hex now topic certLevel maxDocs hashes searchWeb).1.map
           Discovery.ProgMsg.status)) ∧
    (∀ (files : List Discovery.FileJob) (dir : Option Discovery.DirOutcome),
       CompletedRun
         ((Discovery.processLocalFiles files dir).1.map Discovery.ProgMsg.progress)
         ((Discovery.processLocalFiles files dir).1.map Discovery.ProgMsg.status)) ∧
    (∀ query certLevel : String,
       CleanRun ((Agent.runAgent query certLevel).map Agent.AgentMsg.overallProgress)
                ((Agent.runAgent query certLevel).map Agent.AgentMsg.status)) ∧
    CleanRun (Pipeline.runStage1.map Pipeline.StageMsg.progress)
             (Pipeline.runStage1.map Pipeline.StageMsg.status) ∧
    (∀ (pdfFiles : List String) (phase : Int), pdfFiles ≠ [] →
       Pipeline.runStage2 pdfFiles phase = .ok (Pipeline.stage2Trace pdfFiles phase) ∧
       CleanRun ((Pipeline.stage2Trace pdfFiles phase).map Pipeline.StageMsg.progress)
                ((Pipeline.stage2Trace pdfFiles phase).map Pipeline.StageMsg.status)) :=
  ⟨discovery_cleanRun, processLocalFiles_completedRun, agent_cleanRun,
   stage1_cleanRun, stage2_cleanRun⟩

/-- C1 witness: the stage-2 component of the amended claim instantiated at
a concrete non-empty file list and phase. -/
theorem claim_progress_stream_witness :
    (["seed.pdf"] : List String) ≠ [] ∧
    (Pipeline.runStage2 ["seed.pdf"] 3 = .ok (Pipeline.stage2Trace ["seed.pdf"] 3) ∧
     CleanRun ((Pipeline.stage2Trace ["seed.pdf"] 3).map Pipeline.StageMsg.progress)
              ((Pipeline.stage2Trace ["seed.pdf"] 3).map Pipeline.StageMsg.status)) :=
  ⟨by decide, claim_progress_stream_amended.2.2.2.2 ["seed.pdf"] 3 (by decide)⟩

/-- C1 counterexample: a local-file run whose directory scan raises emits
a mid-run `error`-status message and still ends with a `completed`-status
message, so the run contains both statuses and the claim as stated fails. -/
theorem claim_progress_stream_counterexample :
    ¬ SingleTerminalRun
        ((Discovery.processLocalFiles []
            (some (Discovery.DirOutcome.raised "Directory does not exist: ./missing"))).1.map
          Discovery.ProgMsg.progress)
        ((Discovery.processLocalFiles []
            (some (Discovery.DirOutcome.raised "Directory does not exist: ./missing"))).1.map
          Discovery.ProgMsg.status) := by
  intro h
  obtain ⟨-, -, -, hboth⟩ := h
  apply hboth
  rw [plf_status_form_some]
  constructor <;> simp [Discovery.processFilesGo]

/-- C2: every discovery run with `max_documents = k` returns at most `k`
documents, sorted by non-increasing relevance, with pairwise-distinct
URLs, 1-based ranks in order, and a `discovered_at` stamp on each. -/
theorem claim_discovery_results (md5hex : String → String)
    (now topic certLevel : String) (k : Nat) (hashes : List String)
    (searchWeb : String → List Discovery.Doc) :
    (Discovery.discoverDocuments md5hex now topic certLevel k hashes searchWeb).2.1.length ≤ k ∧
    ((Discovery.discoverDocuments md5hex now topic certLevel k hashes searchWeb).2.1.map
      Discovery.Doc.relevance).Pairwise (· ≥ ·) ∧
    ((Discovery.discoverDocuments md5hex now topic certLevel k hashes searchWeb).2.1.map
      Discovery.Doc.url).Nodup ∧
    (Discovery.discoverDocuments md5hex now topic certLevel k hashes searchWeb).2.1.map
      Discovery.Doc.rank =
      (List.range (Discovery.discoverDocuments md5hex now topic certLevel k hashes
        searchWeb).2.1.length).map (fun i => some (i + 1)) ∧
    ∀ d ∈ (Discovery.discoverDocuments md5hex now topic certLevel k hashes searchWeb).2.1,
      d.discovered_at = some now := by
  have hform : (Discovery.discoverDocuments md5hex now topic certLevel k hashes searchWeb).2.1 =
      Discovery.organizeDocuments now
        (Discovery.validateDocuments md5hex now hashes
          (((Discovery.generateSearchQueries topic certLevel).map searchWeb).foldl (· ++ ·) [])).1
        k := by
    simp [Discovery.discoverDocuments]
  rw [hform]
  obtain ⟨h1, h2, h3, h4, h5⟩ := organize_core now
    (Discovery.validateDocuments md5hex now hashes
      (((Discovery.generateSearchQueries topic certLevel).map searchWeb).foldl (· ++ ·) [])).1 k
  refine ⟨h1, h2, ?_, h4, h5⟩
  apply h3
  exact (validateGo_urls md5hex now _ [] hashes).2

/-- The final message of a local-file run with no directory: `completed`
at 100 with the processed-file count. -/
theorem plf_trace_getLast (files : List Discovery.FileJob) :
    (Discovery.processLocalFiles files none).1.getLast? =
      some { step := "completed", progress := 100, status := "completed",
             count := some (Discovery.processFilesGo (files.length : ℚ) files 0).2.length } := by
  simp only [Discovery.processLocalFiles]
  rw [List.getLast?_append]
  simp

/-- The processed-file payload of a local-file run with no directory is
exactly the per-file loop's output. -/
theorem plf_results_none (files : List Discovery.FileJob) :
    (Discovery.processLocalFiles files none).2 =
      (Discovery.processFilesGo (files.length : ℚ) files 0).2 := by
  simp [Discovery.processLocalFiles]

/-- C3: a local batch of N valid files plus one malformed file completes
with exactly N processed results, the run ends with a `completed`-status
message, and the final payload reports the count N. -/
theorem claim_local_batch_skip (pre post : List Discovery.FileJob)
    (bad : Discovery.FileJob)
    (hpre : ∀ j ∈ pre, j.isOk = true) (hpost : ∀ j ∈ post, j.isOk = true)
    (hbad : bad.isOk = false) :
    (Discovery.processLocalFiles (pre ++ bad :: post) none).2.length =
      pre.length + post.length ∧
    ((Discovery.processLocalFiles (pre ++ bad :: post) none).1.map
      Discovery.ProgMsg.status).getLast? = some "completed" ∧
    (Discovery.processLocalFiles (pre ++ bad :: post) none).1.getLast? =
      some { step := "completed", progress := 100, status := "completed",
             count := some (pre.length + post.length) } := by
  have hcount : (Discovery.processLocalFiles (pre ++ bad :: post) none).2.length =
      pre.length + post.length := by
    rw [plf_results_none, processFilesGo_results, List.countP_append,
      List.countP_cons, List.countP_eq_length.mpr hpre,
      List.countP_eq_length.mpr hpost, hbad]
    simp
  refine ⟨hcount, ?_, ?_⟩
  · rw [plf_status_form_none, ← List.cons_append, List.getLast?_append]
    simp
  · rw [plf_trace_getLast]
    have h2 : (Discovery.processFilesGo (((pre ++ bad :: post).length : Nat) : ℚ)
        (pre ++ bad :: post) 0).2.length = pre.length + post.length := by
      rw [← plf_results_none]
      exact hcount
    rw [h2]

/-- C3 witness: one valid text file plus one unsupported file yields
exactly one processed result and a final `completed` message counting 1. -/
theorem claim_local_batch_skip_witness :
    (∀ j ∈ [({ name := "a.txt",
               outcome := Discovery.FileOutcome.ok
                 { id := "local_1", title := "a.txt", url := "./data/uploads/1_a.txt",
                   source := "local-upload", relevance := 1 } } : Discovery.FileJob)],
       j.isOk = true) ∧
    (∀ j ∈ ([] : List Discovery.FileJob), j.isOk = true) ∧
    ({ name := "bad.xyz", outcome := Discovery.FileOutcome.raised "TypeError" } :
      Discovery.FileJob).isOk = false ∧
    ((Discovery.processLocalFiles
        ([({ name := "a.txt",
             outcome := Discovery.FileOutcome.ok
               { id := "local_1", title := "a.txt", url := "./data/uploads/1_a.txt",
                 source := "local-upload", relevance := 1 } } : Discovery.FileJob)] ++
         ({ name := "bad.xyz", outcome := Discovery.FileOutcome.raised "TypeError" } :
           Discovery.FileJob) :: []) none).2.length = 1 + 0 ∧
     ((Discovery.processLocalFiles
        ([({ name := "a.txt",
             outcome := Discovery.FileOutcome.ok
               { id := "local_1", title := "a.txt", url := "./data/uploads/1_a.txt",
                 source := "local-upload", relevance := 1 } } : Discovery.FileJob)] ++
         ({ name := "bad.xyz", outcome := Discovery.FileOutcome.raised "TypeError" } :
           Discovery.FileJob) :: []) none).1.map Discovery.ProgMsg.status).getLast? =
       some "completed" ∧
     (Discovery.processLocalFiles
        ([({ name := "a.txt",
             outcome := Discovery.FileOutcome.ok
               { id := "local_1", title := "a.txt", url := "./data/uploads/1_a.txt",
                 source := "local-upload", relevance := 1 } } : Discovery.FileJob)] ++
         ({ name := "bad.xyz", outcome := Discovery.FileOutcome.raised "TypeError" } :
           Discovery.FileJob) :: []) none).1.getLast? =
       some { step := "completed", progress := 100, status := "completed",
              count := some (1 + 0) }) :=
  ⟨by decide, by decide, by decide,
   claim_local_batch_skip _ _ _ (by decide) (by decide) (by decide)⟩

/-- C4: an unrecognized action routes to the unknown branch, which sends
exactly one typed error message naming the action, leaves the registry
unchanged, and keeps the connection registered. -/
theorem claim_unknown_action (now : String) (r : WsManager.Registry)
    (cid action : String) (c : WsManager.Conn)
    (hfind : r.find? (fun p => p.1 == cid) = some (cid, c))
    (hok : c.writeOk = true)
    (hunknown : Router.recognizedActions.contains action = false) :
    Router.routeAction action = .unknown ∧
    (Router.handleUnknownAction now r cid action).1 = r ∧
    (Router.handleUnknownAction now r cid action).2 =
      [(cid, { type := "error", message := "Unknown action: " ++ action,
               timestamp := some now })] ∧
    WsManager.registered (Router.handleUnknownAction now r cid action).1 cid = true := by
  have hreg : WsManager.registered r cid = true := by
    unfold WsManager.registered
    exact List.any_eq_true.mpr ⟨(cid, c), List.mem_of_find?_eq_some hfind, by simp⟩
  have h1 : (Router.handleUnknownAction now r cid action).1 = r := by
    simp [Router.handleUnknownAction, WsManager.sendError, WsManager.sendMessage,
      hfind, hok]
  refine ⟨?_, h1, ?_, ?_⟩
  · unfold Router.routeAction
    rw [hunknown]
    simp
  · simp [Router.handleUnknownAction, WsManager.sendError, WsManager.sendMessage,
      hfind, hok]
  · rw [h1, hreg]

/-- C4 witness: the action `bogus` on a one-client registry. -/
theorem claim_unknown_action_witness :
    ([("c1", ({ writeOk := true } : WsManager.Conn))] : WsManager.Registry).find?
        (fun p => p.1 == "c1") = some ("c1", ({ writeOk := true } : WsManager.Conn)) ∧
    ({ writeOk := true } : WsManager.Conn).writeOk = true ∧
    Router.recognizedActions.contains "bogus" = false ∧
    (Router.routeAction "bogus" = .unknown ∧
     (Router.handleUnknownAction "t0"
        ([("c1", ({ writeOk := true } : WsManager.Conn))] : WsManager.Registry)
        "c1" "bogus").1 =
       ([("c1", ({ writeOk := true } : WsManager.Conn))] : WsManager.Registry) ∧
     (Router.handleUnknownAction "t0"
        ([("c1", ({ writeOk := true } : WsManager.Conn))] : WsManager.Registry)
        "c1" "bogus").2 =
       [("c1", { type := "error", message := "Unknown action: " ++ "bogus",
                 timestamp := some "t0" })] ∧
     WsManager.registered
       (Router.handleUnknownAction "t0"
         ([("c1", ({ writeOk := true } : WsManager.Conn))] : WsManager.Registry)
         "c1" "bogus").1
       "c1" = true) :=
  ⟨by decide, by decide, by decide,
   claim_unknown_action "t0"
     ([("c1", ({ writeOk := true } : WsManager.Conn))] : WsManager.Registry)
     "c1" "bogus" ({ writeOk := true } : WsManager.Conn)
     (by decide) (by decide) (by decide)⟩

/-- Inserting an active key into an all-inactive list yields exactly one
active key. -/
theorem upsert_active_count (kd : SystemConfig.ApiKey) (hkd : kd.active = true) :
    ∀ l : List SystemConfig.ApiKey, (∀ k ∈ l, k.active = false) →
      (SystemConfig.upsertKey kd l).countP (fun k => k.active) = 1 := by
  intro l
  induction l with
  | nil =>
    intro
    simp [SystemConfig.upsertKey, List.countP_cons, hkd]
  | cons k rest ih =>
    intro hall
    by_cases hid : (k.id == kd.id) = true
    · simp only [SystemConfig.upsertKey, if_pos hid]
      have h0 : rest.countP (fun k => k.active) = 0 :=
        List.countP_eq_zero.mpr
          (fun a ha => by simp [hall a (List.mem_cons_of_mem _ ha)])
      simp [List.countP_cons, h0, hkd]
    · simp only [SystemConfig.upsertKey, if_neg hid]
      have := ih (fun a ha => hall a (List.mem_cons_of_mem _ ha))
      simp [List.countP_cons, this, hall k (List.mem_cons_self _ _)]

/-- C5: setting a present key active succeeds, persists, and leaves
exactly one active key (the chosen one); saving a key marked active also
leaves exactly one active key. -/
theorem claim_single_active_key (keys : List SystemConfig.ApiKey) (keyId : String)
    (hcount : keys.countP (fun k => k.id == keyId) = 1)
    (freshId nowTs : String) (kd : SystemConfig.ApiKey) (hkd : kd.active = true) :
    (SystemConfig.setActiveApiKey keys keyId).status = "success" ∧
    (SystemConfig.setActiveApiKey keys keyId).saved = true ∧
    (SystemConfig.setActiveApiKey keys keyId).keys.countP (fun k => k.active) = 1 ∧
    (∀ k ∈ (SystemConfig.setActiveApiKey keys keyId).keys,
      k.active = true ↔ k.id = keyId) ∧
    (SystemConfig.saveApiKey freshId nowTs kd keys).keys.countP
      (fun k => k.active) = 1 := by
  have hne : keys ≠ [] := by
    intro h
    rw [h] at hcount
    simp at hcount
  have hisEmpty : keys.isEmpty = false := by simp [List.isEmpty_iff, hne]
  have hfound : (keys.any fun k => k.id == keyId) = true := by
    rw [List.any_eq_true]
    have hpos : 0 < keys.countP (fun k => k.id == keyId) := by omega
    exact List.countP_pos_iff.mp hpos
  have hkeys : (SystemConfig.setActiveApiKey keys keyId).keys =
      keys.map (fun k => { k with active := k.id == keyId }) := by
    simp [SystemConfig.setActiveApiKey, hisEmpty, hfound]
  refine ⟨?_, ?_, ?_, ?_, ?_⟩
  · simp [SystemConfig.setActiveApiKey, hisEmpty, hfound]
  · simp [SystemConfig.setActiveApiKey, hisEmpty, hfound]
  · rw [hkeys, List.countP_map]
    simpa using hcount
  · rw [hkeys]
    intro k hk
    obtain ⟨a, ha, rfl⟩ := List.mem_map.mp hk
    simp
  · have hkd2 : (if kd.id == "" then
        ({ kd with id := freshId, createdAt := nowTs } : SystemConfig.ApiKey)
        else kd).active = true := by
      split <;> simpa using hkd
    simp only [SystemConfig.saveApiKey, hkd2, if_pos]
    exact upsert_active_count _ hkd2 _ (by intro a ha; obtain ⟨b, hb, rfl⟩ := List.mem_map.mp ha; rfl)

/-- C5 witness: activating key `B` in a two-key list where `A` was active,
and saving an active key. -/
theorem claim_single_active_key_witness :
    ([({ id := "A", value := "ka", active := true, createdAt := "t0" } : SystemConfig.ApiKey),
      { id := "B", value := "kb", active := false, createdAt := "t1" }].countP
        (fun k => k.id == "B") = 1) ∧
    ({ id := "C", value := "kc", active := true, createdAt := "t2" } :
      SystemConfig.ApiKey).active = true ∧
    ((SystemConfig.setActiveApiKey
        [{ id := "A", value := "ka", active := true, createdAt := "t0" },
         { id := "B", value := "kb", active := false, createdAt := "t1" }] "B").status =
      "success" ∧
     (SystemConfig.setActiveApiKey
        [{ id := "A", value := "ka", active := true, createdAt := "t0" },
         { id := "B", value := "kb", active := false, createdAt := "t1" }] "B").saved = true ∧
     (SystemConfig.setActiveApiKey
        [{ id := "A", value := "ka", active := true, createdAt := "t0" },
         { id := "B", value := "kb", active := false, createdAt := "t1" }] "B").keys.countP
        (fun k => k.active) = 1 ∧
     (∀ k ∈ (SystemConfig.setActiveApiKey
        [{ id := "A", value := "ka", active := true, createdAt := "t0" },
         { id := "B", value := "kb", active := false, createdAt := "t1" }] "B").keys,
       k.active = true ↔ k.id = "B") ∧
     (SystemConfig.saveApiKey "fresh-id" "t3"
        { id := "C", value := "kc", active := true, createdAt := "t2" }
        [{ id := "A", value := "ka", active := true, createdAt := "t0" },
         { id := "B", value := "kb", active := false, createdAt := "t1" }]).keys.countP
        (fun k => k.active) = 1) :=
  ⟨by decide, by decide,
   claim_single_active_key _ "B" (by decide) "fresh-id" "t3" _ (by decide)⟩

/-- C6: an `output_phase` outside 1-5 falls back to the phase 1 step list
and the run still succeeds and terminates with a `completed` message. -/
theorem claim_stage2_fallback (pdfFiles : List String) (phase : Int)
    (hphase : phase < 1 ∨ 5 < phase) (hfiles : pdfFiles ≠ []) :
    Pipeline.phaseStepsFor phase = Pipeline.phase1Steps ∧
    Pipeline.runStage2 pdfFiles phase = .ok (Pipeline.stage2Trace pdfFiles phase) ∧
    ((Pipeline.stage2Trace pdfFiles phase).map Pipeline.StageMsg.status).getLast? =
      some "completed" := by
  refine ⟨?_, (stage2_cleanRun pdfFiles phase hfiles).1,
    (stage2_cleanRun pdfFiles phase hfiles).2.2.1⟩
  unfold Pipeline.phaseStepsFor
  split_ifs with h1 h2 h3 h4 h5 <;> first | rfl | omega

/-- C6 witness: phase 7 on one file. -/
theorem claim_stage2_fallback_witness :
    ((7:Int) < 1 ∨ (5:Int) < 7) ∧ (["seed.pdf"] : List String) ≠ [] ∧
    (Pipeline.phaseStepsFor 7 = Pipeline.phase1Steps ∧
     Pipeline.runStage2 ["seed.pdf"] 7 = .ok (Pipeline.stage2Trace ["seed.pdf"] 7) ∧
     ((Pipeline.stage2Trace ["seed.pdf"] 7).map Pipeline.StageMsg.status).getLast? =
       some "completed") :=
  ⟨by decide, by decide,
   claim_stage2_fallback ["seed.pdf"] 7 (by decide) (by decide)⟩

/-- C7: identical URL+title+source yields the same derived id and content
hash, and when that hash is already in the process-wide set, validation of
a fresh batch excludes every document with those attributes. -/
theorem claim_duplicate_submission (md5hex : String → String)
    (d1 d2 : Discovery.Doc) (hurl : d2.url = d1.url)
    (htitle : d2.title = d1.title) (hsource : d2.source = d1.source)
    (now : String) (hashes : List String) (batch : List Discovery.Doc)
    (hmem : Discovery.docHash md5hex d1 ∈ hashes) :
    Discovery.mockDocId md5hex d2.url d2.title =
      Discovery.mockDocId md5hex d1.url d1.title ∧
    Discovery.docHash md5hex d2 = Discovery.docHash md5hex d1 ∧
    ∀ v ∈ (Discovery.validateDocuments md5hex now hashes batch).1,
      ¬(v.url = d2.url ∧ v.title = d2.title ∧ v.source = d2.source) := by
  have hhash : Discovery.docHash md5hex d2 = Discovery.docHash md5hex d1 := by
    unfold Discovery.docHash
    rw [hurl, htitle, hsource]
  refine ⟨by unfold Discovery.mockDocId; rw [hurl, htitle], hhash, ?_⟩
  intro v hv hattrs
  obtain ⟨hvu, hvt, hvs⟩ := hattrs
  simp only [Discovery.validateDocuments] at hv
  have hfresh := validateGo_hash_fresh md5hex now batch [] hashes v hv
  apply hfresh
  have hveq : Discovery.docHash md5hex v = Discovery.docHash md5hex d2 := by
    unfold Discovery.docHash
    rw [hvu, hvt, hvs, hurl, htitle, hsource]
  rw [hveq, hhash]
  exact hmem

/-- C7 witness: a concrete document resubmitted against a hash set that
already holds its hash. -/
theorem claim_duplicate_submission_witness :
    (({ id := "d1", title := "BGP Guide", url := "https://cisco.com/bgp.pdf",
        source := "cisco.com", relevance := 1 } : Discovery.Doc).url =
      ({ id := "d1", title := "BGP Guide", url := "https://cisco.com/bgp.pdf",
         source := "cisco.com", relevance := 1 } : Discovery.Doc).url) ∧
    (Discovery.docHash id
      { id := "d1", title := "BGP Guide", url := "https://cisco.com/bgp.pdf",
        source := "cisco.com", relevance := 1 } ∈
      [Discovery.docHash id
        { id := "d1", title := "BGP Guide", url := "https://cisco.com/bgp.pdf",
          source := "cisco.com", relevance := 1 }]) ∧
    (∀ v ∈ (Discovery.validateDocuments id "t0"
        [Discovery.docHash id
          { id := "d1", title := "BGP Guide", url := "https://cisco.com/bgp.pdf",
            source := "cisco.com", relevance := 1 }]
        [{ id := "d1", title := "BGP Guide", url := "https://cisco.com/bgp.pdf",
           source := "cisco.com", relevance := 1 }]).1,
      ¬(v.url = ({ id := "d1", title := "BGP Guide", url := "https://cisco.com/bgp.pdf",
                   source := "cisco.com", relevance := 1 } : Discovery.Doc).url ∧
        v.title = ({ id := "d1", title := "BGP Guide", url := "https://cisco.com/bgp.pdf",
                     source := "cisco.com", relevance := 1 } : Discovery.Doc).title ∧
        v.source = ({ id := "d1", title := "BGP Guide", url := "https://cisco.com/bgp.pdf",
                      source := "cisco.com", relevance := 1 } : Discovery.Doc).source)) :=
  ⟨rfl, by simp,
   (claim_duplicate_submission id
     { id := "d1", title := "BGP Guide", url := "https://cisco.com/bgp.pdf",
       source := "cisco.com", relevance := 1 }
     { id := "d1", title := "BGP Guide", url := "https://cisco.com/bgp.pdf",
       source := "cisco.com", relevance := 1 }
     rfl rfl rfl "t0"
     [Discovery.docHash id
       { id := "d1", title := "BGP Guide", url := "https://cisco.com/bgp.pdf",
         source := "cisco.com", relevance := 1 }]
     [{ id := "d1", title := "BGP Guide", url := "https://cisco.com/bgp.pdf",
        source := "cisco.com", relevance := 1 }]
     (by simp)).2.2⟩

/-- C8: when an identical document (same content hash) was already
downloaded, both download entry points short-circuit to
`completed`/100 without running the simulated download and without
touching the downloaded set. -/
theorem claim_download_dedup (md5hex : String → String) (now : String)
    (st : Discovery.DiscoveryState) (doc : Discovery.Doc) (documentId : String)
    (hdl : Discovery.isAlreadyDownloaded md5hex st doc = true)
    (hashes : List String) (adoc : Discovery.Doc) (aid : String)
    (discovered : List Discovery.Doc)
    (hmem : Discovery.docHash md5hex adoc ∈ hashes) :
    Discovery.downloadDocument md5hex now st documentId (some doc) =
      .ok ({ doc with downloadStatus := "completed", downloadProgress := 100,
                      downloaded_at := some now }, st, false) ∧
    Agent.downloadDocument md5hex now hashes discovered aid (some adoc) =
      .ok ({ adoc with downloadStatus := "completed", downloadProgress := 100,
                       downloaded_at := some now }, hashes, false) := by
  constructor
  · simp [Discovery.downloadDocument, hdl]
  · simp [Agent.downloadDocument, hmem]

/-- C8 witness: a document whose hash is already in the downloaded list /
hash set short-circuits both download entry points. -/
theorem claim_download_dedup_witness :
    Discovery.isAlreadyDownloaded id
      { discovered := [],
        downloaded := [{ id := "d0", title := "t", url := "u", source := "s",
                         relevance := 1, document_hash := "u_t_s" }] }
      { id := "d1", title := "t", url := "u", source := "s", relevance := 1 } = true ∧
    (Discovery.docHash id
      ({ id := "d1", title := "t", url := "u", source := "s", relevance := 1 } :
        Discovery.Doc) ∈ ["u_t_s"]) ∧
    (Discovery.downloadDocument id "t0"
        { discovered := [],
          downloaded := [{ id := "d0", title := "t", url := "u", source := "s",
                           relevance := 1, document_hash := "u_t_s" }] }
        "d1" (some { id := "d1", title := "t", url := "u", source := "s",
                     relevance := 1 }) =
      .ok ({ ({ id := "d1", title := "t", url := "u", source := "s",
                relevance := 1 } : Discovery.Doc) with
             downloadStatus := "completed", downloadProgress := 100,
             downloaded_at := some "t0" },
           { discovered := [],
             downloaded := [{ id := "d0", title := "t", url := "u", source := "s",
                              relevance := 1, document_hash := "u_t_s" }] }, false) ∧
     Agent.downloadDocument id "t0" ["u_t_s"] [] "d1"
        (some { id := "d1", title := "t", url := "u", source := "s",
                relevance := 1 }) =
      .ok ({ ({ id := "d1", title := "t", url := "u", source := "s",
                relevance := 1 } : Discovery.Doc) with
             downloadStatus := "completed", downloadProgress := 100,
             downloaded_at := some "t0" }, ["u_t_s"], false)) :=
  ⟨by decide, by decide,
   claim_download_dedup id "t0"
     { discovered := [],
       downloaded := [{ id := "d0", title := "t", url := "u", source := "s",
                        relevance := 1, document_hash := "u_t_s" }] }
     { id := "d1", title := "t", url := "u", source := "s", relevance := 1 }
     "d1" (by decide) ["u_t_s"]
     { id := "d1", title := "t", url := "u", source := "s", relevance := 1 }
     "d1" [] (by decide)⟩

/-- Disconnecting a client removes it from the registry. -/
theorem registered_disconnect (r : WsManager.Registry) (cid : String) :
    WsManager.registered (WsManager.disconnect r cid) cid = false := by
  unfold WsManager.registered WsManager.disconnect
  rw [Bool.eq_false_iff]
  intro h
  obtain ⟨p, hp, hpcid⟩ := List.any_eq_true.mp h
  obtain ⟨-, hne⟩ := List.mem_filter.mp hp
  simp only [bne_iff_ne, ne_eq] at hne
  simp only [beq_iff_eq] at hpcid
  exact hne hpcid

/-- C9: sending to a registered client stamps a missing timestamp before
delivery; a failing write unregisters that client and the call returns
normally (the embedding is total), delivering nothing. -/
theorem claim_send_contract (now : String) (r : WsManager.Registry)
    (cid : String) (c : WsManager.Conn) (m : WsManager.WsMsg)
    (hfind : r.find? (fun p => p.1 == cid) = some (cid, c)) :
    (c.writeOk = true →
       WsManager.sendMessage now r cid m =
         (r, [(cid, if m.timestamp = none then { m with timestamp := some now }
                    else m)]) ∧
       ∀ q ∈ (WsManager.sendMessage now r cid m).2, q.2.timestamp ≠ none) ∧
    (c.writeOk = false →
       WsManager.sendMessage now r cid m = (WsManager.disconnect r cid, []) ∧
       WsManager.registered (WsManager.sendMessage now r cid m).1 cid = false) := by
  constructor
  · intro hok
    have heq : WsManager.sendMessage now r cid m =
        (r, [(cid, if m.timestamp = none then { m with timestamp := some now }
                   else m)]) := by
      simp [WsManager.sendMessage, hfind, hok]
    refine ⟨heq, ?_⟩
    rw [heq]
    intro q hq
    simp only [List.mem_cons, List.not_mem_nil, or_false] at hq
    subst hq
    cases htm : m.timestamp <;> simp [htm]
  · intro hbad
    have heq : WsManager.sendMessage now r cid m = (WsManager.disconnect r cid, []) := by
      simp [WsManager.sendMessage, hfind, hbad]
    refine ⟨heq, ?_⟩
    rw [heq]
    exact registered_disconnect r cid

/-- C9 witness: a registered client with a dead transport is silently
unregistered; with a live transport the timestamp is stamped. -/
theorem claim_send_contract_witness :
    ([("c1", ({ writeOk := false } : WsManager.Conn))] : WsManager.Registry).find?
        (fun p => p.1 == "c1") = some ("c1", ({ writeOk := false } : WsManager.Conn)) ∧
    ((({ writeOk := false } : WsManager.Conn).writeOk = true →
       WsManager.sendMessage "t0"
           ([("c1", ({ writeOk := false } : WsManager.Conn))] : WsManager.Registry)
           "c1" { type := "x", message := "m", timestamp := none } =
         (([("c1", ({ writeOk := false } : WsManager.Conn))] : WsManager.Registry),
          [("c1", if ({ type := "x", message := "m", timestamp := none } :
                      WsManager.WsMsg).timestamp = none
                  then { ({ type := "x", message := "m", timestamp := none } :
                          WsManager.WsMsg) with timestamp := some "t0" }
                  else { type := "x", message := "m", timestamp := none })]) ∧
       ∀ q ∈ (WsManager.sendMessage "t0"
           ([("c1", ({ writeOk := false } : WsManager.Conn))] : WsManager.Registry)
           "c1" { type := "x", message := "m", timestamp := none }).2,
         q.2.timestamp ≠ none) ∧
     (({ writeOk := false } : WsManager.Conn).writeOk = false →
       WsManager.sendMessage "t0"
           ([("c1", ({ writeOk := false } : WsManager.Conn))] : WsManager.Registry)
           "c1" { type := "x", message := "m", timestamp := none } =
         (WsManager.disconnect
            ([("c1", ({ writeOk := false } : WsManager.Conn))] : WsManager.Registry)
            "c1", []) ∧
       WsManager.registered (WsManager.sendMessage "t0"
           ([("c1", ({ writeOk := false } : WsManager.Conn))] : WsManager.Registry)
           "c1" { type := "x", message := "m", timestamp := none }).1 "c1" = false)) :=
  ⟨by decide,
   claim_send_contract "t0"
     ([("c1", ({ writeOk := false } : WsManager.Conn))] : WsManager.Registry)
     "c1" ({ writeOk := false } : WsManager.Conn)
     { type := "x", message := "m", timestamp := none } (by decide)⟩

/-- C10 counterexample: with one active key `A` and an unknown id `B`, the
call reports an error and deactivates `A` in memory, but `_save_config` is
not reached — the changed configuration is not persisted, so the claim as
stated is false at this input. -/
theorem claim_set_active_missing_counterexample :
    (SystemConfig.setActiveApiKey
        [{ id := "A", value := "key-a", active := true, createdAt := "t0" }]
        "B").saved = false ∧
    ¬((SystemConfig.setActiveApiKey
        [{ id := "A", value := "key-a", active := true, createdAt := "t0" }]
        "B").status = "error" ∧
      (∀ k ∈ (SystemConfig.setActiveApiKey
        [{ id := "A", value := "key-a", active := true, createdAt := "t0" }]
        "B").keys, k.active = false) ∧
      (SystemConfig.setActiveApiKey
        [{ id := "A", value := "key-a", active := true, createdAt := "t0" }]
        "B").saved = true) := by
  decide

/-- C10 (amended): calling `set_active_api_key` with an id absent from a
non-empty key list returns an error result and still deactivates every key
in memory, but does NOT persist the changed configuration (the error
return happens before `_save_config`). -/
theorem claim_set_active_missing (keys : List SystemConfig.ApiKey)
    (keyId : String) (hne : keys ≠ [])
    (hmiss : ∀ k ∈ keys, (k.id == keyId) = false) :
    (SystemConfig.setActiveApiKey keys keyId).status = "error" ∧
    (∀ k ∈ (SystemConfig.setActiveApiKey keys keyId).keys, k.active = false) ∧
    (SystemConfig.setActiveApiKey keys keyId).saved = false := by
  have hisEmpty : keys.isEmpty = false := by simp [List.isEmpty_iff, hne]
  have hfound : (keys.any fun k => k.id == keyId) = false := by
    rw [Bool.eq_false_iff]
    intro h
    obtain ⟨a, ha, hp⟩ := List.any_eq_true.mp h
    rw [hmiss a ha] at hp
    exact Bool.false_ne_true hp
  refine ⟨?_, ?_, ?_⟩
  · simp [SystemConfig.setActiveApiKey, hisEmpty, hfound]
  · intro k hk
    have hkeys : (SystemConfig.setActiveApiKey keys keyId).keys =
        keys.map (fun k => { k with active := k.id == keyId }) := by
      simp [SystemConfig.setActiveApiKey, hisEmpty, hfound]
    rw [hkeys] at hk
    obtain ⟨a, ha, rfl⟩ := List.mem_map.mp hk
    simpa using hmiss a ha
  · simp [SystemConfig.setActiveApiKey, hisEmpty, hfound]

/-- C10 witness: the amended claim at the counterexample input. -/
theorem claim_set_active_missing_witness :
    ([({ id := "A", value := "key-a", active := true, createdAt := "t0" } :
        SystemConfig.ApiKey)] ≠ []) ∧
    (∀ k ∈ [({ id := "A", value := "key-a", active := true, createdAt := "t0" } :
        SystemConfig.ApiKey)], (k.id == "B") = false) ∧
    ((SystemConfig.setActiveApiKey
        [{ id := "A", value := "key-a", active := true, createdAt := "t0" }]
        "B").status = "error" ∧
     (∀ k ∈ (SystemConfig.setActiveApiKey
        [{ id := "A", value := "key-a", active := true, createdAt := "t0" }]
        "B").keys, k.active = false) ∧
     (SystemConfig.setActiveApiKey
        [{ id := "A", value := "key-a", active := true, createdAt := "t0" }]
        "B").saved = false) :=
  ⟨by decide, by decide,
   claim_set_active_missing
     [{ id := "A", value := "key-a", active := true, createdAt := "t0" }]
     "B" (by decide) (by decide)⟩
